import Mathlib

/-!
Shallow embedding of the expense-manager backend (Convex mutations/queries):
`convex/auth.ts` (registerUser), `convex/expenses.ts` (logExpense),
`convex/queries.ts` (getExpenseSummary, getRecentExpenses, getExpensesForReport)
and `convex/feedback_mutations.ts` (recordCategoryFeedback).

Modelling conventions:
* The Convex store is a `DB` of three tables kept as lists in insertion order;
  a document's id is its position in its table's list.
* JS strings are Lean `String`; `String.prototype.trim` and
  `String.prototype.toLowerCase` are modelled by the executable `jsTrim` and
  `jsToLower` below (ASCII case folding, same as on every input appearing in
  the claims).
* Timestamps (`date`, `Date.now()`) are epoch-millisecond integers (`Int`),
  as the interface specifies; other JS numbers (`amount`, `limit`,
  `ai_confidence`) are exact rationals (`ℚ`).
* A Convex mutation/query handler is a pure function of the store; a thrown
  error is `Except.error`, and a mutation returns the updated store.
* `.withIndex("by_userId_date", ...)` enumerates documents ordered by the
  index key extended by creation order, i.e. by `(date, insertion position)`
  lexicographically; `.order("desc")` reverses that enumeration.
-/

deriving instance DecidableEq for Except

namespace ExpenseBot

/-- JS `String.prototype.trim`: drop whitespace from both ends. -/
def jsTrim (s : String) : String :=
  ⟨((s.data.dropWhile Char.isWhitespace).reverse.dropWhile Char.isWhitespace).reverse⟩

/-- JS `String.prototype.toLowerCase` (ASCII case folding). -/
def jsToLower (s : String) : String :=
  ⟨s.data.map Char.toLower⟩

/-- Row of the `users` table (`convex/schema.ts`): `username`,
`hashedPassword`, optional `telegramChatId`; `id` is the document id. -/
structure User where
  id : Nat
  username : String
  hashedPassword : String
  telegramChatId : Option String
deriving DecidableEq

/-- Row of the `expenses` table (`convex/schema.ts`). -/
structure Expense where
  userId : Nat
  amount : ℚ
  category : String
  description : Option String
  date : Int
deriving DecidableEq

/-- Row of the `category_feedback` table (`convex/feedback_mutations.ts`). -/
structure CategoryFeedback where
  userId : Nat
  original_text_for_ai : String
  ai_predicted_category : Option String
  ai_confidence : Option ℚ
  user_chosen_category : String
  is_correction : Bool
  timestamp : Int
deriving DecidableEq

/-- The durable store: the three tables, each in insertion order. -/
structure DB where
  users : List User
  expenses : List Expense
  feedback : List CategoryFeedback
deriving DecidableEq

/-- The errors the handlers throw (`throw new Error(...)` sites), plus the
error Convex's `.unique()` raises when more than one document matches. -/
inductive Err where
  | UserNotFound
  | InvalidAmount
  | InvalidCategory
  | InvalidDate
  | InvalidLimit
  | UsernameTaken
  | PasswordTooShort
  | MultipleMatches
deriving DecidableEq

/-- Convex `.unique()`: `null` when no match, the document when exactly one,
and a thrown error when several match. -/
def uniqueResult (l : List α) : Except Err (Option α) :=
  match l with
  | [] => .ok none
  | [a] => .ok (some a)
  | _ => .error .MultipleMatches

/-- The user lookup every handler performs:
`ctx.db.query("users").withIndex("by_telegram_chat_id", q => q.eq("telegramChatId", chatId)).unique()`
(some call sites repeat the same `telegramChatId` test in a `.filter`, which
does not change the matched set). -/
def resolveUser (db : DB) (telegramChatId : String) : Except Err (Option User) :=
  uniqueResult (db.users.filter (fun u => u.telegramChatId == some telegramChatId))

/-- Embedding of `registerUser` (`convex/auth.ts`): reject a taken username, "hash" the
password (the source stores it as-is behind a TODO), reject passwords shorter
than 6 characters, then insert the user — with the caller-supplied
`telegramChatId` and no uniqueness check on it. -/
def registerUser (db : DB) (username password : String)
    (telegramChatId : Option String) : Except Err (DB × Nat) :=
  match uniqueResult (db.users.filter (fun u => u.username == username)) with
  | .error e => .error e
  | .ok (some _) => .error .UsernameTaken
  | .ok none =>
    let hashedPassword := password
    if hashedPassword.length < 6 then .error .PasswordTooShort
    else
      .ok ({ db with
              users := db.users ++ [{ id := db.users.length, username := username,
                                      hashedPassword := hashedPassword,
                                      telegramChatId := telegramChatId }] },
           db.users.length)

/-- JS `description?.trim() || undefined`: `null`/`undefined` stay absent, an
empty-after-trim string becomes absent, otherwise the trimmed string. -/
def normalizeDescription : Option String → Option String
  | none => none
  | some d => if jsTrim d == "" then none else some (jsTrim d)

/-- Embedding of `logExpense` (`convex/expenses.ts`, `now` is `Date.now()`): resolve the
user, validate `amount > 0`, category non-empty after trim
(`!args.category || args.category.trim() === ""`), `date ≤ now + 24h` and
`date ≥ 0`, then insert the expense with trimmed category and normalized
description. -/
def logExpense (db : DB) (now : Int) (telegramChatId : String) (amount : ℚ)
    (category : String) (description : Option String) (date : Int) :
    Except Err (DB × Nat) :=
  match resolveUser db telegramChatId with
  | .error e => .error e
  | .ok none => .error .UserNotFound
  | .ok (some user) =>
    if amount ≤ 0 then .error .InvalidAmount
    else if category == "" || jsTrim category == "" then .error .InvalidCategory
    else if date > now + 24 * 60 * 60 * 1000 then .error .InvalidDate
    else if date < 0 then .error .InvalidDate
    else
      .ok ({ db with
              expenses := db.expenses ++
                [{ userId := user.id, amount := amount, category := jsTrim category,
                   description := normalizeDescription description, date := date }] },
           db.expenses.length)

/-- Result row of `getExpenseSummary`. -/
structure Summary where
  count : Nat
  totalAmount : ℚ
  category : Option String
  startDate : Int
  endDate : Int
deriving DecidableEq

/-- The index range scan of `getExpenseSummary`/`getExpensesForReport`:
`withIndex("by_userId_date", q => q.eq("userId", uid).gte("date", s).lte("date", t))`. -/
def expensesInRange (db : DB) (uid : Nat) (startDate endDate : Int) : List Expense :=
  db.expenses.filter
    (fun e => e.userId == uid && decide (startDate ≤ e.date) && decide (e.date ≤ endDate))

/-- Embedding of `getExpenseSummary` (`convex/queries.ts`): resolve user, collect the
user's expenses with `date` in `[startDate, endDate]`, filter by trimmed
case-insensitive category when `args.category && args.category.trim() !== ""`,
then return the count, the accumulated sum and `args.category?.trim()`. -/
def getExpenseSummary (db : DB) (telegramChatId : String) (startDate endDate : Int)
    (category : Option String) : Except Err Summary :=
  match resolveUser db telegramChatId with
  | .error e => .error e
  | .ok none => .error .UserNotFound
  | .ok (some user) =>
    let expensesInR := expensesInRange db user.id startDate endDate
    let filteredExpenses :=
      match category with
      | some c =>
        if !(c == "") && !(jsTrim c == "") then
          expensesInR.filter (fun (e : Expense) => jsToLower e.category == jsToLower (jsTrim c))
        else expensesInR
      | none => expensesInR
    .ok { count := filteredExpenses.length,
          totalAmount := filteredExpenses.foldl (fun acc (e : Expense) => acc + e.amount) 0,
          category := category.map jsTrim,
          startDate := startDate, endDate := endDate }

/-- Order in which the `by_userId_date` index enumerates one user's expense
documents: by `date`, ties broken by creation (insertion) position. The scan
pairs each document with its position, so the order is total. -/
def scanLE (a b : Nat × Expense) : Prop :=
  a.2.date < b.2.date ∨ (a.2.date = b.2.date ∧ a.1 ≤ b.1)

instance : DecidableRel scanLE := fun a b => by unfold scanLE; infer_instance

instance : IsTotal (Nat × Expense) scanLE :=
  ⟨fun a b => by
    rcases lt_trichotomy a.2.date b.2.date with h | h | h
    · exact Or.inl (Or.inl h)
    · rcases Nat.le_total a.1 b.1 with h' | h'
      · exact Or.inl (Or.inr ⟨h, h'⟩)
      · exact Or.inr (Or.inr ⟨h.symm, h'⟩)
    · exact Or.inr (Or.inl h)⟩

instance : IsTrans (Nat × Expense) scanLE :=
  ⟨fun a b c hab hbc => by
    rcases hab with hab | ⟨hab, hab'⟩ <;> rcases hbc with hbc | ⟨hbc, hbc'⟩
    · exact Or.inl (hab.trans hbc)
    · exact Or.inl (hbc ▸ hab)
    · exact Or.inl (hab ▸ hbc)
    · exact Or.inr ⟨hab.trans hbc, hab'.trans hbc'⟩⟩

/-- Ascending `by_userId_date` index scan over one user's expenses: each
document paired with its position, sorted by `(date, position)`. -/
def userScanAsc (db : DB) (uid : Nat) : List (Nat × Expense) :=
  List.insertionSort scanLE
    ((db.expenses.enum).filter (fun p => p.2.userId == uid))

/-- Ascending `by_userId_date` index scan restricted to a date range, as
`getExpensesForReport` issues it. -/
def userScanRangeAsc (db : DB) (uid : Nat) (startDate endDate : Int) :
    List (Nat × Expense) :=
  List.insertionSort scanLE
    ((db.expenses.enum).filter
      (fun p => p.2.userId == uid && decide (startDate ≤ p.2.date)
        && decide (p.2.date ≤ endDate)))

/-- Convex `.take(limit)` for the JS-number limit the handler passes through:
consume one element as long as the remaining bound is at least 1. For a
non-negative bound this takes `⌊limit⌋` elements. -/
def takeQ (q : ℚ) : List α → List α
  | [] => []
  | a :: l => if 1 ≤ q then a :: takeQ (q - 1) l else []

/-- Row shape `getRecentExpenses` returns
(`_id.toString()`, amount, category, description, date). -/
structure RecentItem where
  id : String
  amount : ℚ
  category : String
  description : Option String
  date : Int
deriving DecidableEq

/-- The row `getRecentExpenses` builds from a scanned document. -/
def mkRecentItem (p : Nat × Expense) : RecentItem :=
  { id := toString p.1, amount := p.2.amount, category := p.2.category,
    description := p.2.description, date := p.2.date }

/-- Embedding of `getRecentExpenses` (`convex/queries.ts`): resolve user, default the
limit to 5, throw unless `0 < limit ≤ 50` (`limit <= 0 || limit > 50`), then
return the user's index scan in descending order cut to `limit` documents. -/
def getRecentExpenses (db : DB) (telegramChatId : String) (limit? : Option ℚ) :
    Except Err (List RecentItem) :=
  match resolveUser db telegramChatId with
  | .error e => .error e
  | .ok none => .error .UserNotFound
  | .ok (some user) =>
    let limit := limit?.getD 5
    if limit ≤ 0 ∨ 50 < limit then .error .InvalidLimit
    else
      .ok ((takeQ limit (userScanAsc db user.id).reverse).map mkRecentItem)

/-- Row shape `getExpensesForReport` returns: `description` is forced to a
plain string by `expense.description ?? ""`. -/
structure ReportItem where
  date : Int
  category : String
  amount : ℚ
  description : String
deriving DecidableEq

/-- Embedding of `getExpensesForReport` (`convex/queries.ts`): resolve user, scan the
user's expenses with `date` in `[startDate, endDate]` in ascending index
order, and render each with `description ?? ""`. -/
def getExpensesForReport (db : DB) (telegramChatId : String)
    (startDate endDate : Int) : Except Err (List ReportItem) :=
  match resolveUser db telegramChatId with
  | .error e => .error e
  | .ok none => .error .UserNotFound
  | .ok (some user) =>
    .ok ((userScanRangeAsc db user.id startDate endDate).map
      (fun p => { date := p.2.date, category := p.2.category,
                  amount := p.2.amount,
                  description := p.2.description.getD "" }))

/-- Outcome of `recordCategoryFeedback`: the no-user path returns
`{ success: false, message: "User not found for feedback." }` instead of
throwing; the success path returns the new document's id. -/
inductive FeedbackOutcome where
  | dropped
  | recorded (feedbackId : Nat)
deriving DecidableEq

/-- The `is_correction` computation of `recordCategoryFeedback`: `false`
unless the AI predicted a category whose trimmed lower-cased form differs
from the trimmed lower-cased user choice. -/
def isCorrectionFlag (ai_predicted_category : Option String)
    (user_chosen_category : String) : Bool :=
  match ai_predicted_category with
  | some p => !(jsToLower (jsTrim p) == jsToLower (jsTrim user_chosen_category))
  | none => false

/-- Embedding of `recordCategoryFeedback` (`convex/feedback_mutations.ts`, `now` is
`Date.now()`): resolve the user; when unresolved return the dropped outcome
with the store untouched; otherwise derive `is_correction` and append one
feedback document stamped with the server time. -/
def recordCategoryFeedback (db : DB) (now : Int) (telegramChatId : String)
    (original_text_for_ai : String) (ai_predicted_category : Option String)
    (ai_confidence : Option ℚ) (user_chosen_category : String) :
    Except Err (DB × FeedbackOutcome) :=
  match resolveUser db telegramChatId with
  | .error e => .error e
  | .ok none => .ok (db, .dropped)
  | .ok (some user) =>
    .ok ({ db with
            feedback := db.feedback ++
              [{ userId := user.id,
                 original_text_for_ai := original_text_for_ai,
                 ai_predicted_category := ai_predicted_category,
                 ai_confidence := ai_confidence,
                 user_chosen_category := user_chosen_category,
                 is_correction := isCorrectionFlag ai_predicted_category user_chosen_category,
                 timestamp := now }] },
         .recorded db.feedback.length)

/-- The matching set the specification describes for `getSummary`: the
user's stored expenses with `date` in `[startDate, endDate]` inclusive,
further filtered by trimmed case-insensitive category when a category with
non-empty trim was supplied. -/
def specMatching (db : DB) (uid : Nat) (startDate endDate : Int)
    (category : Option String) : List Expense :=
  db.expenses.filter
    (fun e => e.userId == uid && decide (startDate ≤ e.date) && decide (e.date ≤ endDate)
      && (match category with
          | some c =>
            if jsTrim c == "" then true
            else jsToLower e.category == jsToLower (jsTrim c)
          | none => true))

/-! ## Helper lemmas -/

lemma foldl_add_amount (l : List Expense) (a : ℚ) :
    l.foldl (fun acc e => acc + e.amount) a = a + (l.map Expense.amount).sum := by
  induction l generalizing a with
  | nil => simp
  | cons e l ih => simp [List.foldl_cons, ih, add_assoc]

lemma jsTrim_empty : jsTrim "" = "" := rfl

lemma specMatching_none (db : DB) (uid : Nat) (s t : Int) :
    specMatching db uid s t none = expensesInRange db uid s t := by
  unfold specMatching expensesInRange
  simp

lemma specMatching_trim_empty (db : DB) (uid : Nat) (s t : Int) {c : String}
    (hc : jsTrim c = "") :
    specMatching db uid s t (some c) = expensesInRange db uid s t := by
  unfold specMatching expensesInRange
  simp [hc]

lemma specMatching_trim_nonempty (db : DB) (uid : Nat) (s t : Int) {c : String}
    (hc : jsTrim c ≠ "") :
    specMatching db uid s t (some c) =
      (expensesInRange db uid s t).filter
        (fun e => jsToLower e.category == jsToLower (jsTrim c)) := by
  unfold specMatching expensesInRange
  rw [List.filter_filter]
  apply List.filter_congr
  intro e _
  have hb : (jsTrim c == "") = false := beq_eq_false_iff_ne.mpr hc
  simp [hb, Bool.and_comm]

/-- The summary a resolved `getExpenseSummary` call returns, in terms of the
specification's matching set. -/
lemma getExpenseSummary_eq (db : DB) (chat : String) (s t : Int)
    (cat : Option String) (u : User) (hu : resolveUser db chat = .ok (some u)) :
    getExpenseSummary db chat s t cat =
      .ok { count := (specMatching db u.id s t cat).length,
            totalAmount := ((specMatching db u.id s t cat).map Expense.amount).sum,
            category := cat.map jsTrim, startDate := s, endDate := t } := by
  unfold getExpenseSummary
  rw [hu]
  cases cat with
  | none =>
    simp [specMatching_none, foldl_add_amount]
  | some c =>
    by_cases hc : jsTrim c = ""
    · have hb : (jsTrim c == "") = true := by simp [hc]
      simp [hb, specMatching_trim_empty db u.id s t hc, foldl_add_amount]
    · have hb : (jsTrim c == "") = false := beq_eq_false_iff_ne.mpr hc
      have hcne : c ≠ "" := by
        intro h
        exact hc (h ▸ jsTrim_empty)
      have hbc : (c == "") = false := beq_eq_false_iff_ne.mpr hcne
      simp [hb, hbc, specMatching_trim_nonempty db u.id s t hc, foldl_add_amount]

lemma specMatching_eq_nil (db : DB) (uid : Nat) {s t : Int} (cat : Option String)
    (hts : t < s) : specMatching db uid s t cat = [] := by
  unfold specMatching
  rw [List.filter_eq_nil_iff]
  intro e _
  simp only [Bool.and_eq_true, decide_eq_true_eq, not_and]
  intro h
  omega

lemma takeQ_sublist (q : ℚ) (l : List α) : (takeQ q l).Sublist l := by
  induction l generalizing q with
  | nil => simp [takeQ]
  | cons a l ih =>
    rw [takeQ]
    split
    · exact (ih (q - 1)).cons₂ a
    · exact List.nil_sublist _

lemma length_takeQ_le (q : ℚ) (hq : 0 ≤ q) (l : List α) :
    ((takeQ q l).length : ℚ) ≤ q := by
  induction l generalizing q with
  | nil => simpa [takeQ] using hq
  | cons a l ih =>
    rw [takeQ]
    split
    · rename_i h1
      have h2 := ih (q - 1) (by linarith)
      simp only [List.length_cons]
      push_cast
      linarith
    · simpa using hq

lemma sorted_userScanAsc (db : DB) (uid : Nat) :
    (userScanAsc db uid).Pairwise scanLE :=
  List.sorted_insertionSort scanLE _

lemma sorted_userScanRangeAsc (db : DB) (uid : Nat) (s t : Int) :
    (userScanRangeAsc db uid s t).Pairwise scanLE :=
  List.sorted_insertionSort scanLE _

lemma snd_mem_of_mem_enumFrom {p : Nat × α} :
    ∀ {l : List α} {n : Nat}, p ∈ List.enumFrom n l → p.2 ∈ l := by
  intro l
  induction l with
  | nil => intro n h; simp [List.enumFrom] at h
  | cons a l ih =>
    intro n h
    rw [List.enumFrom, List.mem_cons] at h
    rcases h with h | h
    · rw [h]; exact List.mem_cons_self a l
    · exact List.mem_cons_of_mem a (ih h)

lemma mem_userScanAsc {db : DB} {uid : Nat} {p : Nat × Expense}
    (hp : p ∈ userScanAsc db uid) :
    p.2 ∈ db.expenses ∧ p.2.userId = uid := by
  have h1 : p ∈ (db.expenses.enum).filter (fun p => p.2.userId == uid) :=
    ((List.perm_insertionSort scanLE _).mem_iff).mp hp
  rw [List.mem_filter] at h1
  exact ⟨snd_mem_of_mem_enumFrom h1.1, by simpa using h1.2⟩

lemma map_snd_filter_enumFrom (f : α → Bool) :
    ∀ (l : List α) (n : Nat),
      ((List.enumFrom n l).filter (fun p => f p.2)).map Prod.snd = l.filter f := by
  intro l
  induction l with
  | nil => intro n; simp [List.enumFrom]
  | cons a l ih =>
    intro n
    rw [List.enumFrom, List.filter_cons, List.filter_cons]
    by_cases hf : f a = true
    · simp only [hf, if_pos]
      rw [List.map_cons, ih (n + 1)]
    · simp only [hf]
      simpa using ih (n + 1)

lemma getRecent_ok {db : DB} {chat : String} {u : User}
    (hu : resolveUser db chat = .ok (some u)) (q : ℚ)
    (h0 : ¬ q ≤ 0) (h50 : ¬ 50 < q) :
    getRecentExpenses db chat (some q) =
      .ok ((takeQ q (userScanAsc db u.id).reverse).map mkRecentItem) := by
  unfold getRecentExpenses
  rw [hu]
  simp [h0, h50]

lemma getRecent_err {db : DB} {chat : String} {u : User}
    (hu : resolveUser db chat = .ok (some u)) (q : ℚ)
    (hq : q ≤ 0 ∨ 50 < q) :
    getRecentExpenses db chat (some q) = .error .InvalidLimit := by
  unfold getRecentExpenses
  rw [hu]
  simp only [Option.getD_some]
  rw [if_pos hq]

/-! ## Concrete store used by the witnesses -/

def uW : User :=
  { id := 0, username := "alice", hashedPassword := "secret1",
    telegramChatId := some "chat1" }

def eW1 : Expense :=
  { userId := 0, amount := 10, category := "Food", description := none, date := 100 }

def eW2 : Expense :=
  { userId := 0, amount := 20, category := "Transport", description := some "bus",
    date := 200 }

def eW3 : Expense :=
  { userId := 0, amount := 7, category := "Food", description := none, date := 200 }

def dbW : DB := { users := [uW], expenses := [eW1, eW2, eW3], feedback := [] }

/-! ## Claims -/

/-- C1: for every resolved user and every date range, `getExpenseSummary`
returns the count and amount-sum of the matching expenses (date within
`[startDate, endDate]` inclusive, then the optional category filter); an
empty match set — in particular whenever `startDate > endDate` — yields
count 0 and totalAmount 0 rather than an error. -/
theorem c1_getSummary_aggregation (db : DB) (chat : String) (s t : Int)
    (cat : Option String) (u : User) (hu : resolveUser db chat = .ok (some u)) :
    ∃ r, getExpenseSummary db chat s t cat = .ok r ∧
      r.count = (specMatching db u.id s t cat).length ∧
      r.totalAmount = ((specMatching db u.id s t cat).map Expense.amount).sum ∧
      (t < s → r.count = 0 ∧ r.totalAmount = 0) := by
  refine ⟨_, getExpenseSummary_eq db chat s t cat u hu, rfl, rfl, ?_⟩
  intro hts
  rw [specMatching_eq_nil db u.id cat hts]
  simp

theorem c1_witness :
    resolveUser dbW "chat1" = .ok (some uW) ∧
    (∃ r, getExpenseSummary dbW "chat1" 0 300 none = .ok r ∧
      r.count = (specMatching dbW uW.id 0 300 none).length ∧
      r.totalAmount = ((specMatching dbW uW.id 0 300 none).map Expense.amount).sum ∧
      ((300 : Int) < 0 → r.count = 0 ∧ r.totalAmount = 0)) :=
  ⟨by decide, c1_getSummary_aggregation dbW "chat1" 0 300 none uW (by decide)⟩

/-- C2: `logExpense` on a resolved user rejects `amount ≤ 0` with
`InvalidAmount`, then an empty-after-trim category with `InvalidCategory`,
then a date outside `[0, now + 24h]` with `InvalidDate`; a rejected call
returns without producing a store, so no expense record is written, while a
valid call appends exactly the one normalized record. -/
theorem c2_logExpense_validation (db : DB) (now : Int) (chat : String)
    (amount : ℚ) (category : String) (descr : Option String) (date : Int)
    (u : User) (hu : resolveUser db chat = .ok (some u)) :
    (amount ≤ 0 →
      logExpense db now chat amount category descr date = .error .InvalidAmount) ∧
    (0 < amount → jsTrim category = "" →
      logExpense db now chat amount category descr date = .error .InvalidCategory) ∧
    (0 < amount → jsTrim category ≠ "" →
      (date < 0 ∨ now + 24 * 60 * 60 * 1000 < date) →
      logExpense db now chat amount category descr date = .error .InvalidDate) ∧
    (0 < amount → jsTrim category ≠ "" → 0 ≤ date →
      date ≤ now + 24 * 60 * 60 * 1000 →
      logExpense db now chat amount category descr date =
        .ok ({ db with
                expenses := db.expenses ++
                  [{ userId := u.id, amount := amount, category := jsTrim category,
                     description := normalizeDescription descr, date := date }] },
             db.expenses.length)) := by
  unfold logExpense
  rw [hu]
  refine ⟨?_, ?_, ?_, ?_⟩
  · intro h
    simp [h]
  · intro h0 hcat
    have hb : (jsTrim category == "") = true := by simp [hcat]
    simp [not_le.mpr h0, hb]
  · intro h0 hcat hdate
    have hb : (jsTrim category == "") = false := beq_eq_false_iff_ne.mpr hcat
    have hcne : category ≠ "" := fun h => hcat (h ▸ jsTrim_empty)
    have hbc : (category == "") = false := beq_eq_false_iff_ne.mpr hcne
    by_cases hgt : now + 24 * 60 * 60 * 1000 < date
    · have hgt' : now + 86400000 < date := by omega
      simp [not_le.mpr h0, hb, hbc, hgt, hgt']
    · have hneg : date < 0 := hdate.resolve_right hgt
      have hgt' : ¬ now + 86400000 < date := by omega
      simp [not_le.mpr h0, hb, hbc, hgt, hgt', hneg]
  · intro h0 hcat hd0 hd1
    have hb : (jsTrim category == "") = false := beq_eq_false_iff_ne.mpr hcat
    have hcne : category ≠ "" := fun h => hcat (h ▸ jsTrim_empty)
    have hbc : (category == "") = false := beq_eq_false_iff_ne.mpr hcne
    have hd1' : ¬ now + 86400000 < date := by omega
    simp [not_le.mpr h0, hb, hbc, not_lt.mpr hd1, hd1', not_lt.mpr hd0]

theorem c2_witness :
    (logExpense dbW 1700000000000 "chat1" 0 "Food" none 1700000000000 =
      .error .InvalidAmount) ∧
    (logExpense dbW 1700000000000 "chat1" 10 "   " none 1700000000000 =
      .error .InvalidCategory) ∧
    (logExpense dbW 1700000000000 "chat1" 10 "Food" none (1700000000000 + 90000000) =
      .error .InvalidDate) ∧
    (logExpense dbW 1700000000000 "chat1" 10 "Food" none (-5) =
      .error .InvalidDate) ∧
    (logExpense dbW 1700000000000 "chat1" 10 "Food" none (1700000000000 + 82800000) =
      .ok ({ dbW with
              expenses := dbW.expenses ++
                [{ userId := uW.id, amount := 10, category := jsTrim "Food",
                   description := normalizeDescription none,
                   date := 1700000000000 + 82800000 }] },
           dbW.expenses.length)) := by
  have h := c2_logExpense_validation dbW 1700000000000 "chat1"
  refine ⟨(h 0 "Food" none 1700000000000 uW (by decide)).1 le_rfl,
          (h 10 "   " none 1700000000000 uW (by decide)).2.1 (by decide) (by decide),
          (h 10 "Food" none (1700000000000 + 90000000) uW (by decide)).2.2.1
            (by decide) (by decide) (Or.inr (by decide)),
          (h 10 "Food" none (-5) uW (by decide)).2.2.1
            (by decide) (by decide) (Or.inl (by decide)),
          (h 10 "Food" none (1700000000000 + 82800000) uW (by decide)).2.2.2
            (by decide) (by decide) (by decide) (by decide)⟩

/-- C3: the stored `is_correction` flag of `recordCategoryFeedback` is true
exactly when the AI supplied a prediction whose trimmed lower-cased form
differs from the trimmed lower-cased user choice; an absent prediction always
yields false. -/
theorem c3_isCorrection_derivation (db : DB) (now : Int) (chat txt chosen : String)
    (predicted : Option String) (conf : Option ℚ) (u : User)
    (hu : resolveUser db chat = .ok (some u)) :
    ∃ db', recordCategoryFeedback db now chat txt predicted conf chosen =
        .ok (db', .recorded db.feedback.length) ∧
      db'.feedback = db.feedback ++
        [{ userId := u.id, original_text_for_ai := txt,
           ai_predicted_category := predicted, ai_confidence := conf,
           user_chosen_category := chosen,
           is_correction := isCorrectionFlag predicted chosen, timestamp := now }] ∧
      (isCorrectionFlag predicted chosen = true ↔
        ∃ p, predicted = some p ∧ jsToLower (jsTrim p) ≠ jsToLower (jsTrim chosen)) := by
  refine ⟨_, by rw [recordCategoryFeedback, hu], rfl, ?_⟩
  cases predicted with
  | none => simp [isCorrectionFlag]
  | some p => simp [isCorrectionFlag]

theorem c3_witness :
    resolveUser dbW "chat1" = .ok (some uW) ∧
    (∃ db', recordCategoryFeedback dbW 500 "chat1" "lunch" (some "Food") none "food" =
        .ok (db', .recorded dbW.feedback.length) ∧
      db'.feedback = dbW.feedback ++
        [{ userId := uW.id, original_text_for_ai := "lunch",
           ai_predicted_category := some "Food", ai_confidence := none,
           user_chosen_category := "food",
           is_correction := isCorrectionFlag (some "Food") "food",
           timestamp := 500 }] ∧
      (isCorrectionFlag (some "Food") "food" = true ↔
        ∃ p, (some "Food" : Option String) = some p ∧
          jsToLower (jsTrim p) ≠ jsToLower (jsTrim "food"))) ∧
    isCorrectionFlag (some "Food") "food" = false ∧
    isCorrectionFlag (some "Food") "Transport" = true ∧
    isCorrectionFlag none "Transport" = false :=
  ⟨by decide,
   c3_isCorrection_derivation dbW 500 "chat1" "lunch" "food" (some "Food") none uW
     (by decide),
   by decide, by decide, by decide⟩

/-- C5: when the chat identifier resolves to no user, `recordCategoryFeedback`
returns the dropped outcome with the store unchanged instead of throwing;
when it resolves, exactly one feedback record is appended and its identifier
is returned. -/
theorem c5_feedback_dropped_or_recorded (db : DB) (now : Int)
    (chat txt chosen : String) (predicted : Option String) (conf : Option ℚ) :
    (resolveUser db chat = .ok none →
      recordCategoryFeedback db now chat txt predicted conf chosen =
        .ok (db, .dropped)) ∧
    (∀ u, resolveUser db chat = .ok (some u) →
      recordCategoryFeedback db now chat txt predicted conf chosen =
        .ok ({ db with
                feedback := db.feedback ++
                  [{ userId := u.id, original_text_for_ai := txt,
                     ai_predicted_category := predicted, ai_confidence := conf,
                     user_chosen_category := chosen,
                     is_correction := isCorrectionFlag predicted chosen,
                     timestamp := now }] },
             .recorded db.feedback.length)) := by
  constructor
  · intro h
    rw [recordCategoryFeedback, h]
  · intro u h
    rw [recordCategoryFeedback, h]

theorem c5_witness :
    (resolveUser dbW "chat9" = .ok none ∧
      recordCategoryFeedback dbW 500 "chat9" "coffee" none none "Food" =
        .ok (dbW, .dropped)) ∧
    (resolveUser dbW "chat1" = .ok (some uW) ∧
      recordCategoryFeedback dbW 500 "chat1" "coffee" none none "Food" =
        .ok ({ dbW with
                feedback := dbW.feedback ++
                  [{ userId := uW.id, original_text_for_ai := "coffee",
                     ai_predicted_category := none, ai_confidence := none,
                     user_chosen_category := "Food",
                     is_correction := isCorrectionFlag none "Food",
                     timestamp := 500 }] },
             .recorded dbW.feedback.length)) :=
  ⟨⟨by decide,
    (c5_feedback_dropped_or_recorded dbW 500 "chat9" "coffee" "Food" none none).1
      (by decide)⟩,
   ⟨by decide,
    (c5_feedback_dropped_or_recorded dbW 500 "chat1" "coffee" "Food" none none).2 uW
      (by decide)⟩⟩

/-- C8 counterexample: a whitespace-only category argument applies no filter,
yet the returned `category` field is the present empty string `some ""`,
not absent as the claim requires. -/
theorem c8_counterexample :
    (getExpenseSummary dbW "chat1" 0 300 (some " ")).map Summary.category =
      .ok (some "") := by
  decide

/-- C8 amended: the returned `category` is `args.category?.trim()` — the
trimmed supplied value whenever a category argument is present (even a
whitespace-only one, which applies no filter but is echoed as the empty
string), and absent exactly when no category argument was supplied. -/
theorem c8_category_echo (db : DB) (chat : String) (s t : Int)
    (cat : Option String) (u : User) (hu : resolveUser db chat = .ok (some u)) :
    ∃ r, getExpenseSummary db chat s t cat = .ok r ∧
      r.category = cat.map jsTrim :=
  ⟨_, getExpenseSummary_eq db chat s t cat u hu, rfl⟩

theorem c8_witness :
    resolveUser dbW "chat1" = .ok (some uW) ∧
    (∃ r, getExpenseSummary dbW "chat1" 0 300 (some "  Food  ") = .ok r ∧
      r.category = (some "  Food  " : Option String).map jsTrim) :=
  ⟨by decide, c8_category_echo dbW "chat1" 0 300 (some "  Food  ") uW (by decide)⟩

/-- C4: an expense logged with some raw category (stored trimmed) is matched
by every summary whose category filter agrees with it up to trimming and
ASCII letter case, provided its date lies in the queried range; it therefore
contributes to the returned count. -/
theorem c4_category_filter_case_insensitive (db : DB) (now : Int) (chat : String)
    (amount : ℚ) (rawCat : String) (descr : Option String) (date : Int)
    (db' : DB) (eid : Nat) (u : User)
    (hu : resolveUser db chat = .ok (some u))
    (hlog : logExpense db now chat amount rawCat descr date = .ok (db', eid))
    (s t : Int) (hs : s ≤ date) (ht : date ≤ t)
    (qc : String) (hqc : jsToLower (jsTrim qc) = jsToLower (jsTrim rawCat)) :
    ∃ r, getExpenseSummary db' chat s t (some qc) = .ok r ∧
      ({ userId := u.id, amount := amount, category := jsTrim rawCat,
         description := normalizeDescription descr, date := date } : Expense) ∈
        specMatching db' u.id s t (some qc) ∧
      0 < r.count := by
  unfold logExpense at hlog
  rw [hu] at hlog
  split_ifs at hlog
  rw [Except.ok.injEq, Prod.mk.injEq] at hlog
  obtain ⟨hdb, -⟩ := hlog
  subst hdb
  have hu' : resolveUser
      { db with
        expenses := db.expenses ++
          [{ userId := u.id, amount := amount, category := jsTrim rawCat,
             description := normalizeDescription descr, date := date }] } chat =
      .ok (some u) := hu
  have hmem :
      ({ userId := u.id, amount := amount, category := jsTrim rawCat,
         description := normalizeDescription descr, date := date } : Expense) ∈
      specMatching
        { db with
          expenses := db.expenses ++
            [{ userId := u.id, amount := amount, category := jsTrim rawCat,
               description := normalizeDescription descr, date := date }] }
        u.id s t (some qc) := by
    unfold specMatching
    rw [List.mem_filter]
    refine ⟨by simp, ?_⟩
    simp only [Bool.and_eq_true, beq_self_eq_true, decide_eq_true_eq]
    refine ⟨⟨⟨by simp, hs⟩, ht⟩, ?_⟩
    by_cases hqe : jsTrim qc = ""
    · simp [hqe]
    · have hb : (jsTrim qc == "") = false := beq_eq_false_iff_ne.mpr hqe
      simp [hb, hqc.symm]
  refine ⟨_, getExpenseSummary_eq _ chat s t (some qc) u hu', hmem, ?_⟩
  exact List.length_pos.mpr (List.ne_nil_of_mem hmem)

theorem c4_witness :
    resolveUser dbW "chat1" = .ok (some uW) ∧
    logExpense dbW 1700000000000 "chat1" 15 " FOOD " none 250 =
      .ok ({ dbW with
              expenses := dbW.expenses ++
                [{ userId := uW.id, amount := 15, category := jsTrim " FOOD ",
                   description := normalizeDescription none, date := 250 }] }, 3) ∧
    (∃ r, getExpenseSummary
        { dbW with
          expenses := dbW.expenses ++
            [{ userId := uW.id, amount := 15, category := jsTrim " FOOD ",
               description := normalizeDescription none, date := 250 }] }
        "chat1" 0 300 (some "Food") = .ok r ∧
      ({ userId := uW.id, amount := 15, category := jsTrim " FOOD ",
         description := normalizeDescription none, date := 250 } : Expense) ∈
        specMatching
          { dbW with
            expenses := dbW.expenses ++
              [{ userId := uW.id, amount := 15, category := jsTrim " FOOD ",
                 description := normalizeDescription none, date := 250 }] }
          uW.id 0 300 (some "Food") ∧
      0 < r.count) :=
  ⟨by decide, by decide,
   c4_category_filter_case_insensitive dbW 1700000000000 "chat1" 15 " FOOD " none 250
     _ 3 uW (by decide) (by decide) 0 300 (by decide) (by decide) "Food" (by decide)⟩

/-- C6: `getRecentExpenses` on a resolved user defaults a missing limit to 5,
rejects limits outside `(0, 50]` with `InvalidLimit` (so 0 and 51 fail while
1 and 50 succeed), and on success returns the user's expenses cut to the
limit, ordered by date descending with the deterministic tie-break inherited
from the index (creation order); the result is a pure function of the store,
so repeated calls with no intervening writes coincide. -/
theorem c6_getRecent_contract (db : DB) (chat : String) (u : User)
    (hu : resolveUser db chat = .ok (some u)) :
    getRecentExpenses db chat none = getRecentExpenses db chat (some 5) ∧
    getRecentExpenses db chat (some 0) = .error .InvalidLimit ∧
    getRecentExpenses db chat (some 51) = .error .InvalidLimit ∧
    (∀ q : ℚ, 0 < q → q ≤ 50 →
      ∃ l, getRecentExpenses db chat (some q) = .ok l ∧
        l = (takeQ q (userScanAsc db u.id).reverse).map mkRecentItem ∧
        ((l.length : ℚ) ≤ q) ∧
        l.Pairwise (fun a b => b.date ≤ a.date) ∧
        (∀ it ∈ l, ∃ e, e ∈ db.expenses ∧ e.userId = u.id ∧
          it.amount = e.amount ∧ it.category = e.category ∧
          it.description = e.description ∧ it.date = e.date)) := by
  refine ⟨rfl, getRecent_err hu 0 (Or.inl le_rfl),
          getRecent_err hu 51 (Or.inr (by norm_num)), ?_⟩
  intro q h0 h50
  refine ⟨_, getRecent_ok hu q (not_le.mpr h0) (not_lt.mpr h50), rfl, ?_, ?_, ?_⟩
  · rw [List.length_map]
    exact length_takeQ_le q h0.le _
  · have hrev : ((userScanAsc db u.id).reverse).Pairwise (fun a b => scanLE b a) :=
      List.pairwise_reverse.mpr (sorted_userScanAsc db u.id)
    have htake := List.Pairwise.sublist (takeQ_sublist q _) hrev
    refine List.pairwise_map.mpr (htake.imp ?_)
    intro a b h
    rcases h with h | ⟨h, -⟩
    · exact le_of_lt h
    · exact le_of_eq h
  · intro it hit
    rw [List.mem_map] at hit
    obtain ⟨p, hp, rfl⟩ := hit
    have hp1 : p ∈ (userScanAsc db u.id).reverse :=
      List.Sublist.mem hp (takeQ_sublist q _)
    rw [List.mem_reverse] at hp1
    obtain ⟨hmem, huid⟩ := mem_userScanAsc hp1
    exact ⟨p.2, hmem, huid, rfl, rfl, rfl, rfl⟩

theorem c6_witness :
    resolveUser dbW "chat1" = .ok (some uW) ∧
    getRecentExpenses dbW "chat1" none = getRecentExpenses dbW "chat1" (some 5) ∧
    getRecentExpenses dbW "chat1" (some 0) = .error .InvalidLimit ∧
    getRecentExpenses dbW "chat1" (some 51) = .error .InvalidLimit ∧
    (∃ l, getRecentExpenses dbW "chat1" (some 1) = .ok l ∧
      l = (takeQ 1 (userScanAsc dbW uW.id).reverse).map mkRecentItem ∧
      ((l.length : ℚ) ≤ 1) ∧
      l.Pairwise (fun a b => b.date ≤ a.date) ∧
      (∀ it ∈ l, ∃ e, e ∈ dbW.expenses ∧ e.userId = uW.id ∧
        it.amount = e.amount ∧ it.category = e.category ∧
        it.description = e.description ∧ it.date = e.date)) ∧
    (∃ l, getRecentExpenses dbW "chat1" (some 50) = .ok l ∧
      l = (takeQ 50 (userScanAsc dbW uW.id).reverse).map mkRecentItem ∧
      ((l.length : ℚ) ≤ 50) ∧
      l.Pairwise (fun a b => b.date ≤ a.date) ∧
      (∀ it ∈ l, ∃ e, e ∈ dbW.expenses ∧ e.userId = uW.id ∧
        it.amount = e.amount ∧ it.category = e.category ∧
        it.description = e.description ∧ it.date = e.date)) := by
  have h := c6_getRecent_contract dbW "chat1" uW (by decide)
  exact ⟨by decide, h.1, h.2.1, h.2.2.1,
         h.2.2.2 1 (by decide) (by decide), h.2.2.2 50 (by decide) (by decide)⟩

/-- C7: `getExpensesForReport` on a resolved user returns exactly the user's
expenses with date in `[startDate, endDate]` inclusive, ordered by date
ascending, each rendered with the stored description or `""` when the stored
description is absent. -/
theorem c7_report_contract (db : DB) (chat : String) (s t : Int) (u : User)
    (hu : resolveUser db chat = .ok (some u)) :
    ∃ l, getExpensesForReport db chat s t = .ok l ∧
      l.Perm ((expensesInRange db u.id s t).map
        (fun e => ({ date := e.date, category := e.category, amount := e.amount,
                     description := e.description.getD "" } : ReportItem))) ∧
      l.Pairwise (fun a b => a.date ≤ b.date) := by
  have hget : getExpensesForReport db chat s t =
      .ok ((userScanRangeAsc db u.id s t).map
        (fun p => { date := p.2.date, category := p.2.category,
                    amount := p.2.amount,
                    description := p.2.description.getD "" })) := by
    unfold getExpensesForReport
    rw [hu]
  refine ⟨_, hget, ?_, ?_⟩
  · have hperm :=
      (List.perm_insertionSort scanLE
        ((db.expenses.enum).filter
          (fun p => p.2.userId == u.id && decide (s ≤ p.2.date)
            && decide (p.2.date ≤ t)))).map
        (fun p : Nat × Expense =>
          ({ date := p.2.date, category := p.2.category, amount := p.2.amount,
             description := p.2.description.getD "" } : ReportItem))
    have h1 : ((db.expenses.enum).filter
        (fun p => p.2.userId == u.id && decide (s ≤ p.2.date)
          && decide (p.2.date ≤ t))).map Prod.snd =
        db.expenses.filter
          (fun e => e.userId == u.id && decide (s ≤ e.date) && decide (e.date ≤ t)) :=
      map_snd_filter_enumFrom
        (fun e => e.userId == u.id && decide (s ≤ e.date) && decide (e.date ≤ t))
        db.expenses 0
    have hrw : ((db.expenses.enum).filter
        (fun p => p.2.userId == u.id && decide (s ≤ p.2.date)
          && decide (p.2.date ≤ t))).map
        (fun p : Nat × Expense =>
          ({ date := p.2.date, category := p.2.category, amount := p.2.amount,
             description := p.2.description.getD "" } : ReportItem)) =
        (expensesInRange db u.id s t).map
          (fun e => ({ date := e.date, category := e.category, amount := e.amount,
                       description := e.description.getD "" } : ReportItem)) := by
      unfold expensesInRange
      rw [← h1, List.map_map]
      rfl
    exact hrw ▸ hperm
  · have hsort := sorted_userScanRangeAsc db u.id s t
    refine List.pairwise_map.mpr (hsort.imp ?_)
    intro a b h
    rcases h with h | ⟨h, -⟩
    · exact le_of_lt h
    · exact le_of_eq h

theorem c7_witness :
    resolveUser dbW "chat1" = .ok (some uW) ∧
    (∃ l, getExpensesForReport dbW "chat1" 0 300 = .ok l ∧
      l.Perm ((expensesInRange dbW uW.id 0 300).map
        (fun e => ({ date := e.date, category := e.category, amount := e.amount,
                     description := e.description.getD "" } : ReportItem))) ∧
      l.Pairwise (fun a b => a.date ≤ b.date)) :=
  ⟨by decide, c7_report_contract dbW "chat1" 0 300 uW (by decide)⟩

/-- Store states reached by the two `registerUser` calls of the C9 scenario. -/
def db9a : DB :=
  { users := [{ id := 0, username := "alice", hashedPassword := "secret1",
                telegramChatId := some "123" }], expenses := [], feedback := [] }

def db9b : DB :=
  { users := [{ id := 0, username := "alice", hashedPassword := "secret1",
                telegramChatId := some "123" },
              { id := 1, username := "bob", hashedPassword := "secret2",
                telegramChatId := some "123" }],
    expenses := [], feedback := [] }

/-- C9: `registerUser` checks only username uniqueness, so a second user
carrying an already-bound `telegramChatId` is created; afterwards the
`.unique()` lookup every ledger operation relies on throws for that chat id,
contradicting the uniqueness invariant the rest of the code assumes. -/
theorem c9_registerUser_duplicate_chat_id :
    registerUser { users := [], expenses := [], feedback := [] } "alice" "secret1"
        (some "123") = .ok (db9a, 0) ∧
    registerUser db9a "bob" "secret2" (some "123") = .ok (db9b, 1) ∧
    (db9b.users.filter (fun v => v.telegramChatId == some "123")).length = 2 ∧
    resolveUser db9b "123" = .error .MultipleMatches := by
  decide

/-- C10: the limit validation of `getRecentExpenses` raises `InvalidLimit`
exactly on `limit ≤ 0` or `limit > 50`; integrality is never checked, so a
non-integer limit in `(0, 50]` such as 2.5 is accepted and passed through as
the bound on the number of returned expenses. -/
theorem c10_limit_bounds_only (db : DB) (chat : String) (u : User)
    (hu : resolveUser db chat = .ok (some u)) (q : ℚ) :
    (getRecentExpenses db chat (some q) = .error .InvalidLimit ↔
      q ≤ 0 ∨ 50 < q) ∧
    (0 < q → q ≤ 50 →
      ∃ l, getRecentExpenses db chat (some q) = .ok l ∧ ((l.length : ℚ) ≤ q)) := by
  constructor
  · constructor
    · intro h
      by_contra hq
      push_neg at hq
      rw [getRecent_ok hu q (not_le.mpr hq.1) (not_lt.mpr hq.2)] at h
      cases h
    · exact getRecent_err hu q
  · intro h0 h50
    refine ⟨_, getRecent_ok hu q (not_le.mpr h0) (not_lt.mpr h50), ?_⟩
    rw [List.length_map]
    exact length_takeQ_le q h0.le _

theorem c10_witness :
    resolveUser dbW "chat1" = .ok (some uW) ∧
    ¬ (mkRat 5 2 ≤ 0 ∨ (50 : ℚ) < mkRat 5 2) ∧
    (getRecentExpenses dbW "chat1" (some (mkRat 5 2)) = .error .InvalidLimit ↔
      mkRat 5 2 ≤ 0 ∨ (50 : ℚ) < mkRat 5 2) ∧
    (∃ l, getRecentExpenses dbW "chat1" (some (mkRat 5 2)) = .ok l ∧
      ((l.length : ℚ) ≤ mkRat 5 2)) := by
  have h := c10_limit_bounds_only dbW "chat1" uW (by decide) (mkRat 5 2)
  exact ⟨by decide, by decide, h.1, h.2 (by decide) (by decide)⟩

end ExpenseBot
